import Mathlib

/-
  Shallow embedding of src/main.rs of the pulse-visualizer repository.

  The program is a single linear procedure driving the external PulseAudio
  client library: connect, wait for the context to be Ready, create a stream,
  look up a sink by name, connect a monitor-recording stream, wait for the
  stream to be Ready, then poll for ten seconds printing non-silent chunks.

  The external library is modelled as an environment: each polling loop
  consumes a list of responses (iterate results, reported states, peek
  results, elapsed times). The program itself is embedded as pure functions
  from those response lists to a trace of events (library calls and console
  output) plus an outcome. Console strings reproduce the source literally,
  including the two places spelled qutting in the source.
-/

namespace PulseVisualizer

/-- Sample formats of the external library (pa_sample_format); the program
uses S16le only, but validity of a spec is defined over the whole type. -/
inductive Format
  | U8 | ALaw | ULaw | S16le | S16be | F32le | F32be | S32le | S32be
  | S24le | S24be | S24_32le | S24_32be | Invalid
  deriving DecidableEq, Repr

/-- Embeds pulse::sample::Spec from the Rust binding. -/
structure Spec where
  format : Format
  channels : Nat
  rate : Nat
  deriving DecidableEq, Repr

/-- PA_RATE_MAX of the external library. -/
def PA_RATE_MAX : Nat := 48000 * 8

/-- PA_CHANNELS_MAX of the external library. -/
def PA_CHANNELS_MAX : Nat := 32

/-- Modelled from the external library: pa_sample_format_valid holds for
every format other than the invalid marker. -/
def Format.valid : Format → Bool
  | Format.Invalid => false
  | _ => true

/-- Modelled from the external library: pa_sample_spec_valid, called by
Spec::is_valid of the binding (positive rate and channel count within the
library bounds, and a valid sample format). -/
def Spec.is_valid (s : Spec) : Bool :=
  decide (0 < s.rate) && decide (s.rate ≤ PA_RATE_MAX) &&
  decide (0 < s.channels) && decide (s.channels ≤ PA_CHANNELS_MAX) &&
  s.format.valid

/-- The fixed sample specification built at the top of main (main.rs 19-23). -/
def spec : Spec := ⟨Format.S16le, 2, 44100⟩

/-- Result of Mainloop::iterate (pulse::mainloop::standard::IterateResult). -/
inductive IterateResult
  | Success (n : Int)
  | Quit (retval : Int)
  | Err (code : Nat)
  deriving DecidableEq, Repr

/-- Context states reported by Context::get_state (pulse::context::State). -/
inductive ContextState
  | Unconnected | Connecting | Authorizing | SettingName | Ready | Failed | Terminated
  deriving DecidableEq, Repr

/-- Stream states reported by Stream::get_state (pulse::stream::State). -/
inductive StreamState
  | Unconnected | Creating | Ready | Failed | Terminated
  deriving DecidableEq, Repr

/-- The IterateResult::Err and IterateResult::Quit match arms that every loop
of the source treats as a failed mainloop iteration. -/
def IterateResult.failed : IterateResult → Bool
  | IterateResult.Err _ => true
  | IterateResult.Quit _ => true
  | IterateResult.Success _ => false

/-- The State::Failed and State::Terminated match arm on context states. -/
def ContextState.failedOrTerminated : ContextState → Bool
  | ContextState.Failed => true
  | ContextState.Terminated => true
  | _ => false

/-- The State::Failed and State::Terminated match arm on stream states. -/
def StreamState.failedOrTerminated : StreamState → Bool
  | StreamState.Failed => true
  | StreamState.Terminated => true
  | _ => false

/-- Result of Stream::peek (pulse::stream::PeekResult); bytes are modelled
as natural numbers below 256, though only zero versus non-zero matters. -/
inductive PeekResult
  | Empty
  | Hole (size : Nat)
  | Data (bytes : List Nat)
  deriving DecidableEq, Repr

/-- Observable events of a run: console output and calls into the external
library, in program order. printData records the chunk length and bytes that
the println of main.rs line 139 formats. -/
inductive Event
  | out (s : String)
  | errOut (s : String)
  | printData (len : Nat) (bytes : List Nat)
  | iterate
  | ctxConnect
  | ctxGetState
  | createStream
  | introspectCall
  | setMonitorStream (idx : Nat)
  | connectRecord
  | streamGetState
  | corkCheck
  | uncork
  | peek
  | discard
  | tryRecv
  | quitMainloop
  | disconnectStream
  deriving DecidableEq, Repr

/-- Exit of the context-ready wait loop (main.rs 48-67). -/
inductive CtxWaitExit
  | ready | iterFail | ctxFail | outOfInput
  deriving DecidableEq, Repr

/-- The context-ready wait loop of main.rs 48-67: each iteration pumps the
mainloop, returns on a failed iteration, then inspects the context state,
breaking on Ready and returning on Failed or Terminated. -/
def ctxWait : List (IterateResult × ContextState) → List Event × CtxWaitExit
  | [] => ([], CtxWaitExit.outOfInput)
  | (ir, cs) :: rest =>
    if ir.failed then
      ([Event.iterate, Event.errOut "Iterate state was not success, qutting..."],
       CtxWaitExit.iterFail)
    else if cs = ContextState.Ready then
      ([Event.iterate, Event.ctxGetState], CtxWaitExit.ready)
    else if cs.failedOrTerminated then
      ([Event.iterate, Event.ctxGetState,
        Event.errOut "Context state failed/terminated, quitting..."], CtxWaitExit.ctxFail)
    else
      let r := ctxWait rest
      (Event.iterate :: Event.ctxGetState :: r.1, r.2)

/-- One sink item delivered to the get_sink_info_list callback: the optional
name and the index of pulse SinkInfo, the two fields the program reads. -/
structure SinkInfo where
  name : Option String
  index : Nat
  deriving DecidableEq, Repr

/-- Character-list prefix test, used to embed str::contains. -/
def headMatches : List Char → List Char → Bool
  | [], _ => true
  | _ :: _, [] => false
  | a :: as, b :: bs => a == b && headMatches as bs

/-- Character-list substring test, used to embed str::contains. -/
def hasSub : List Char → List Char → Bool
  | pat, [] => headMatches pat []
  | pat, c :: rest => headMatches pat (c :: rest) || hasSub pat rest

/-- Embeds str::contains of the Rust standard library. -/
def strContains (s pat : String) : Bool := hasSub pat.data s.data

/-- The fixed substring the program filters sink names with (main.rs 160). -/
def fiio : String := "FiiO"

/-- The body of the get_sink_info_list callback for a single Item
(main.rs 159-164): unwrap the name (panicking when it is absent), and when
it contains the fixed substring, print the sink and send its index on the
channel. Returns the console events and the indices sent. -/
def sinkItemStep (item : SinkInfo) : Except String (List Event × List Nat) :=
  match item.name with
  | none => Except.error "called Option::unwrap on a None value"
  | some n =>
    if strContains n fiio then
      Except.ok ([Event.out ("Found sink " ++ n ++ ".")], [item.index])
    else
      Except.ok ([], [])

/-- The whole callback run of get_sink_info_list (main.rs 158-167): every
Item in order, then the terminal End (silent) or Error (a diagnostic on
standard error, with no further effect). An absent name panics. -/
def sinkEnum : List SinkInfo → Bool → Except String (List Event × List Nat)
  | [], errored =>
    if errored then Except.ok ([Event.errOut "Error getting sink info list."], [])
    else Except.ok ([], [])
  | item :: rest, errored =>
    match sinkItemStep item with
    | Except.error msg => Except.error msg
    | Except.ok (e1, q1) =>
      match sinkEnum rest errored with
      | Except.error msg => Except.error msg
      | Except.ok (e2, q2) => Except.ok (e1 ++ e2, q1 ++ q2)

/-- One environment step of the receive loop of get_sink (main.rs 169-191):
the iterate result, the context state, how many pending channel messages
arrive before this try_recv, and whether the sender was dropped by then. -/
structure RecvStep where
  iter : IterateResult
  ctx : ContextState
  arrive : Nat
  dropped : Bool
  deriving DecidableEq, Repr

/-- Exit of get_sink: the received sink index, or a panic (the source uses
panic rather than eprintln plus return inside get_sink). -/
inductive GetSinkExit
  | got (v : Nat)
  | panicked (msg : String)
  | outOfInput
  deriving DecidableEq, Repr

/-- The receive loop of get_sink (main.rs 169-191). The channel is a FIFO
queue: mailbox holds arrived messages, pending the not-yet-delivered sends
of the callback; each step first pumps the mainloop (panicking on failure),
checks the context state (panicking on Failed or Terminated), delivers
arrive messages, then try_recv pops the mailbox, loops on Empty and panics
on Disconnected. -/
def getSinkLoop : List RecvStep → List Nat → List Nat → List Event × GetSinkExit
  | [], _, _ => ([], GetSinkExit.outOfInput)
  | s :: rest, mailbox, pending =>
    if s.iter.failed then
      ([Event.iterate], GetSinkExit.panicked "Iterate state was not success, qutting...")
    else if s.ctx.failedOrTerminated then
      ([Event.iterate, Event.ctxGetState],
       GetSinkExit.panicked "Context state failed/terminated, quitting...")
    else
      match mailbox ++ pending.take s.arrive with
      | v :: _ => ([Event.iterate, Event.ctxGetState, Event.tryRecv], GetSinkExit.got v)
      | [] =>
        if s.dropped then
          ([Event.iterate, Event.ctxGetState, Event.tryRecv],
           GetSinkExit.panicked "Empty channel.")
        else
          let r := getSinkLoop rest [] (pending.drop s.arrive)
          (Event.iterate :: Event.ctxGetState :: Event.tryRecv :: r.1, r.2)

/-- get_sink of main.rs 153-192: register the introspection callback over the
sink list (whose sends form the initial pending queue) and run the receive
loop; a panic inside the callback aborts the lookup. -/
def get_sink (sinks : List SinkInfo) (errored : Bool) (steps : List RecvStep) :
    List Event × GetSinkExit :=
  match sinkEnum sinks errored with
  | Except.error msg => ([Event.introspectCall], GetSinkExit.panicked msg)
  | Except.ok (cbEvents, sends) =>
    let r := getSinkLoop steps [] sends
    (Event.introspectCall :: cbEvents ++ r.1, r.2)

/-- Exit of the stream-ready wait loop (main.rs 88-106). -/
inductive StreamWaitExit
  | ready | iterFail | streamFail | outOfInput
  deriving DecidableEq, Repr

/-- The stream-ready wait loop of main.rs 88-106, mirroring ctxWait with the
stream state in place of the context state. -/
def streamWait : List (IterateResult × StreamState) → List Event × StreamWaitExit
  | [] => ([], StreamWaitExit.outOfInput)
  | (ir, ss) :: rest =>
    if ir.failed then
      ([Event.iterate, Event.errOut "Iterate state was not success, quitting..."],
       StreamWaitExit.iterFail)
    else if ss = StreamState.Ready then
      ([Event.iterate, Event.streamGetState], StreamWaitExit.ready)
    else if ss.failedOrTerminated then
      ([Event.iterate, Event.streamGetState,
        Event.errOut "Stream state failed/terminated, quitting..."],
       StreamWaitExit.streamFail)
    else
      let r := streamWait rest
      (Event.iterate :: Event.streamGetState :: r.1, r.2)

/-- Duration::from_secs(10) of main.rs 108, in milliseconds. -/
def run_duration : Nat := 10000

instance {ε α : Type} [DecidableEq ε] [DecidableEq α] : DecidableEq (Except ε α)
  | Except.error e, Except.error f =>
    if h : e = f then isTrue (by rw [h]) else isFalse (by intro c; cases c; exact h rfl)
  | Except.error _, Except.ok _ => isFalse (by intro c; cases c)
  | Except.ok _, Except.error _ => isFalse (by intro c; cases c)
  | Except.ok a, Except.ok b =>
    if h : a = b then isTrue (by rw [h]) else isFalse (by intro c; cases c; exact h rfl)

/-- One environment step of the polling loop (main.rs 112-145): the iterate
result, the Result of is_corked, the elapsed wall-clock milliseconds at the
duration check, the Result of peek, and whether a discard would succeed. -/
structure PollStep where
  iter : IterateResult
  corked : Except Nat Bool
  elapsedMs : Nat
  peekRes : Except Nat PeekResult
  discardOk : Bool
  deriving DecidableEq, Repr

/-- Exit of the polling loop. -/
inductive PollExit
  | timeUp | iterFail | panicked (msg : String) | outOfInput
  deriving DecidableEq, Repr

/-- The Data branch of the peek match (main.rs 137-141): print the chunk
length and bytes unless every byte is zero. -/
def handleData (bytes : List Nat) : List Event :=
  if bytes.all (fun x => x == 0) then []
  else [Event.printData bytes.length bytes]

/-- The peek match of main.rs 130-144: a read error prints a diagnostic on
standard error (and nothing more), Empty does nothing, Hole prints and
discards (panicking when the discard fails), Data defers to handleData.
The Option String is a panic message when the iteration panics. -/
def handlePeek (res : Except Nat PeekResult) (discardOk : Bool) :
    List Event × Option String :=
  match res with
  | Except.error code =>
    ([Event.peek, Event.errOut ("Error reading from stream " ++ toString code ++ ".")], none)
  | Except.ok PeekResult.Empty => ([Event.peek], none)
  | Except.ok (PeekResult.Hole _) =>
    if discardOk then
      ([Event.peek, Event.out "Hole, discarding.", Event.discard], none)
    else
      ([Event.peek, Event.out "Hole, discarding.", Event.discard],
       some "called Result::unwrap on an Err value")
  | Except.ok (PeekResult.Data bytes) => (Event.peek :: handleData bytes, none)

/-- One iteration of the polling loop body (main.rs 112-145), in source
order: iterate (return on failure), the is_corked check with uncork, the
elapsed-duration check breaking the loop, then the peek match. The second
component is the loop exit when this iteration ends the loop. -/
def pollStep (s : PollStep) : List Event × Option PollExit :=
  if s.iter.failed then
    ([Event.iterate, Event.errOut "Iterate state was not success, quitting..."],
     some PollExit.iterFail)
  else
    match s.corked with
    | Except.error _ =>
      ([Event.iterate, Event.corkCheck],
       some (PollExit.panicked "called Result::unwrap on an Err value"))
    | Except.ok c =>
      let corkEvs := if c then [Event.out "Uncorking stream.", Event.uncork] else []
      if run_duration < s.elapsedMs then
        (Event.iterate :: Event.corkCheck :: corkEvs, some PollExit.timeUp)
      else
        let hp := handlePeek s.peekRes s.discardOk
        match hp.2 with
        | some msg =>
          (Event.iterate :: Event.corkCheck :: corkEvs ++ hp.1, some (PollExit.panicked msg))
        | none => (Event.iterate :: Event.corkCheck :: corkEvs ++ hp.1, none)

/-- The polling loop of main.rs 112-145 over its environment steps. -/
def pollLoop : List PollStep → List Event × PollExit
  | [] => ([], PollExit.outOfInput)
  | s :: rest =>
    let ps := pollStep s
    match ps.2 with
    | some ex => (ps.1, ex)
    | none =>
      let r := pollLoop rest
      (ps.1 ++ r.1, r.2)

/-- The whole environment a run of main consumes. -/
structure Env where
  ctxSteps : List (IterateResult × ContextState)
  sinks : List SinkInfo
  sinkEnumErrored : Bool
  recvSteps : List RecvStep
  streamSteps : List (IterateResult × StreamState)
  pollSteps : List PollStep
  deriving Repr

/-- Outcome of a run of main. -/
inductive Outcome
  | finished
  | earlyReturn
  | panicked (msg : String)
  | outOfInput
  deriving DecidableEq, Repr

/-- Trace of main up to and including the sink lookup: context connect, the
context-ready wait, the stream-creation and lookup prints, and get_sink. -/
def trace2 (env : Env) : List Event :=
  Event.ctxConnect :: (ctxWait env.ctxSteps).1 ++
    [Event.out "Creating stream.", Event.createStream, Event.out "Getting sink."] ++
    (get_sink env.sinks env.sinkEnumErrored env.recvSteps).1

/-- Trace of main up to and including the stream-ready wait, after the sink
index v was obtained: the sink print, monitor-stream setup, record connect
and the stream-ready wait of main.rs 78-106. -/
def trace3 (env : Env) (v : Nat) : List Event :=
  trace2 env ++
    [Event.out ("Using sink " ++ toString v ++ "."), Event.setMonitorStream v,
     Event.connectRecord] ++ (streamWait env.streamSteps).1

/-- Trace of main up to and including the polling loop (main.rs 108-145). -/
def trace4 (env : Env) (v : Nat) : List Event :=
  trace3 env v ++ [Event.out "Running for 10s."] ++ (pollLoop env.pollSteps).1

/-- main of main.rs 18-151: assert the spec is valid, connect the context,
wait for it to be Ready, create the stream, look up the sink, print it and
set it as monitor target, connect the recording stream, wait for it to be
Ready, run the polling loop, then shut down. Every early return of the
source maps to Outcome.earlyReturn, every panic to Outcome.panicked. -/
def main (env : Env) : List Event × Outcome :=
  if spec.is_valid then
    match (ctxWait env.ctxSteps).2 with
    | CtxWaitExit.iterFail => (Event.ctxConnect :: (ctxWait env.ctxSteps).1, Outcome.earlyReturn)
    | CtxWaitExit.ctxFail => (Event.ctxConnect :: (ctxWait env.ctxSteps).1, Outcome.earlyReturn)
    | CtxWaitExit.outOfInput => (Event.ctxConnect :: (ctxWait env.ctxSteps).1, Outcome.outOfInput)
    | CtxWaitExit.ready =>
      match (get_sink env.sinks env.sinkEnumErrored env.recvSteps).2 with
      | GetSinkExit.panicked msg => (trace2 env, Outcome.panicked msg)
      | GetSinkExit.outOfInput => (trace2 env, Outcome.outOfInput)
      | GetSinkExit.got v =>
        match (streamWait env.streamSteps).2 with
        | StreamWaitExit.iterFail => (trace3 env v, Outcome.earlyReturn)
        | StreamWaitExit.streamFail => (trace3 env v, Outcome.earlyReturn)
        | StreamWaitExit.outOfInput => (trace3 env v, Outcome.outOfInput)
        | StreamWaitExit.ready =>
          match (pollLoop env.pollSteps).2 with
          | PollExit.iterFail => (trace4 env v, Outcome.earlyReturn)
          | PollExit.panicked msg => (trace4 env v, Outcome.panicked msg)
          | PollExit.outOfInput => (trace4 env v, Outcome.outOfInput)
          | PollExit.timeUp =>
            (trace4 env v ++
              [Event.out "Shutdown.", Event.quitMainloop, Event.disconnectStream],
             Outcome.finished)
  else ([], Outcome.panicked "assertion failed: spec.is_valid()")

/-- Events a state-wait or sink-lookup loop can emit: console prints,
mainloop pumps, state reads and channel polls; never a stream operation. -/
def waitEvent : Event → Bool
  | Event.out _ => true
  | Event.errOut _ => true
  | Event.iterate => true
  | Event.ctxGetState => true
  | Event.streamGetState => true
  | Event.tryRecv => true
  | _ => false

/-- Events the polling loop can emit. -/
def loopEvent : Event → Bool
  | Event.out _ => true
  | Event.errOut _ => true
  | Event.printData _ _ => true
  | Event.iterate => true
  | Event.corkCheck => true
  | Event.uncork => true
  | Event.peek => true
  | Event.discard => true
  | _ => false

/-- A concrete environment exercising the full run: context immediately
Ready, one matching sink, stream immediately Ready, one quiet poll step. -/
def envA : Env :=
  ⟨[(IterateResult.Success 0, ContextState.Ready)],
   [⟨some "FiiO", 1⟩], false,
   [⟨IterateResult.Success 0, ContextState.Ready, 1, false⟩],
   [(IterateResult.Success 0, StreamState.Ready)],
   [⟨IterateResult.Success 0, Except.ok false, 0, Except.ok PeekResult.Empty, true⟩]⟩

/-- The sink predicate the callback filters with: the name, when present,
contains the fixed substring. -/
def sinkMatches (item : SinkInfo) : Bool :=
  match item.name with
  | none => false
  | some n => strContains n fiio

/-- The indices the callback sends on the channel, in enumeration order. -/
def matchingIndices (sinks : List SinkInfo) : List Nat :=
  (sinks.filter sinkMatches).map SinkInfo.index

theorem ctxWait_waitEvents : ∀ steps, ∀ e ∈ (ctxWait steps).1, waitEvent e = true := by
  intro steps
  induction steps with
  | nil => intro e h; simp [ctxWait] at h
  | cons p rest ih =>
    obtain ⟨ir, cs⟩ := p
    intro e h
    by_cases hf : ir.failed = true
    · simp [ctxWait, hf] at h
      rcases h with h | h <;> subst h <;> rfl
    · by_cases hr : cs = ContextState.Ready
      · simp [ctxWait, hf, hr] at h
        rcases h with h | h <;> subst h <;> rfl
      · by_cases hft : cs.failedOrTerminated = true
        · simp [ctxWait, hf, hr, hft] at h
          rcases h with h | h | h <;> subst h <;> rfl
        · simp [ctxWait, hf, hr, hft] at h
          rcases h with h | h | h
          · subst h; rfl
          · subst h; rfl
          · exact ih e h

theorem streamWait_waitEvents : ∀ steps, ∀ e ∈ (streamWait steps).1, waitEvent e = true := by
  intro steps
  induction steps with
  | nil => intro e h; simp [streamWait] at h
  | cons p rest ih =>
    obtain ⟨ir, ss⟩ := p
    intro e h
    by_cases hf : ir.failed = true
    · simp [streamWait, hf] at h
      rcases h with h | h <;> subst h <;> rfl
    · by_cases hr : ss = StreamState.Ready
      · simp [streamWait, hf, hr] at h
        rcases h with h | h <;> subst h <;> rfl
      · by_cases hft : ss.failedOrTerminated = true
        · simp [streamWait, hf, hr, hft] at h
          rcases h with h | h | h <;> subst h <;> rfl
        · simp [streamWait, hf, hr, hft] at h
          rcases h with h | h | h
          · subst h; rfl
          · subst h; rfl
          · exact ih e h

theorem getSinkLoop_waitEvents :
    ∀ (steps : List RecvStep) (mailbox pending : List Nat),
      ∀ e ∈ (getSinkLoop steps mailbox pending).1, waitEvent e = true := by
  intro steps
  induction steps with
  | nil => intro mailbox pending e h; simp [getSinkLoop] at h
  | cons s rest ih =>
    intro mailbox pending e h
    by_cases hf : s.iter.failed = true
    · simp [getSinkLoop, hf] at h
      subst h; rfl
    · by_cases hft : s.ctx.failedOrTerminated = true
      · simp [getSinkLoop, hf, hft] at h
        rcases h with h | h <;> subst h <;> rfl
      · cases hm : mailbox ++ pending.take s.arrive with
        | cons v t =>
          simp [getSinkLoop, hf, hft, hm] at h
          rcases h with h | h | h <;> subst h <;> rfl
        | nil =>
          by_cases hd : s.dropped = true
          · simp [getSinkLoop, hf, hft, hm, hd] at h
            rcases h with h | h | h <;> subst h <;> rfl
          · simp [getSinkLoop, hf, hft, hm, hd] at h
            rcases h with h | h | h | h
            · subst h; rfl
            · subst h; rfl
            · subst h; rfl
            · exact ih [] (pending.drop s.arrive) e h

theorem sinkEnum_waitEvents :
    ∀ (sinks : List SinkInfo) (errored : Bool) (evs : List Event) (q : List Nat),
      sinkEnum sinks errored = Except.ok (evs, q) → ∀ e ∈ evs, waitEvent e = true := by
  intro sinks
  induction sinks with
  | nil =>
    intro errored evs q h e he
    by_cases hb : errored = true
    · simp [sinkEnum, hb] at h
      obtain ⟨h1, h2⟩ := h
      subst h1
      simp at he
      subst he
      rfl
    · simp [sinkEnum, hb] at h
      obtain ⟨h1, h2⟩ := h
      subst h1
      simp at he
  | cons item rest ih =>
    intro errored evs q h e he
    cases hn : item.name with
    | none => simp [sinkEnum, sinkItemStep, hn] at h
    | some n =>
      cases h2 : sinkEnum rest errored with
      | error msg =>
        by_cases hc : strContains n fiio = true <;>
          simp [sinkEnum, sinkItemStep, hn, hc, h2] at h
      | ok p =>
        obtain ⟨e2, q2⟩ := p
        by_cases hc : strContains n fiio = true
        · simp [sinkEnum, sinkItemStep, hn, hc, h2] at h
          obtain ⟨h1, h3⟩ := h
          subst h1
          rcases List.mem_cons.mp he with h3 | h3
          · subst h3; rfl
          · exact ih errored e2 q2 h2 e h3
        · simp [sinkEnum, sinkItemStep, hn, hc, h2] at h
          obtain ⟨h1, h3⟩ := h
          subst h1
          exact ih errored e2 q2 h2 e he

theorem get_sink_events :
    ∀ (sinks : List SinkInfo) (errored : Bool) (steps : List RecvStep) (e : Event),
      e ∈ (get_sink sinks errored steps).1 →
      e = Event.introspectCall ∨ waitEvent e = true := by
  intro sinks errored steps e h
  unfold get_sink at h
  cases h2 : sinkEnum sinks errored with
  | error msg => simp [h2] at h; simp [h]
  | ok p =>
    obtain ⟨cbEvents, sends⟩ := p
    simp [h2] at h
    rcases h with h | h | h
    · simp [h]
    · exact Or.inr (sinkEnum_waitEvents sinks errored cbEvents sends h2 e h)
    · exact Or.inr (getSinkLoop_waitEvents steps [] sends e h)

theorem handleData_loopEvents : ∀ bytes, ∀ e ∈ handleData bytes, loopEvent e = true := by
  intro bytes e h
  unfold handleData at h
  split at h
  · simp at h
  · simp at h
    subst h
    rfl

theorem handlePeek_loopEvents :
    ∀ (r : Except Nat PeekResult) (d : Bool), ∀ e ∈ (handlePeek r d).1, loopEvent e = true := by
  intro r d e h
  cases r with
  | error c =>
    simp [handlePeek] at h
    rcases h with h | h <;> subst h <;> rfl
  | ok pr =>
    cases pr with
    | Empty =>
      simp [handlePeek] at h
      subst h
      rfl
    | Hole n =>
      by_cases hd : d = true <;> simp [handlePeek, hd] at h <;>
        rcases h with h | h | h <;> subst h <;> rfl
    | Data bytes =>
      simp [handlePeek] at h
      rcases h with h | h
      · subst h; rfl
      · exact handleData_loopEvents bytes e h

theorem pollStep_loopEvents : ∀ (s : PollStep), ∀ e ∈ (pollStep s).1, loopEvent e = true := by
  intro s e h
  unfold pollStep at h
  by_cases hf : s.iter.failed = true
  · simp [hf] at h
    rcases h with h | h <;> subst h <;> rfl
  · cases hc : s.corked with
    | error c =>
      simp [hf, hc] at h
      rcases h with h | h <;> subst h <;> rfl
    | ok c =>
      by_cases ht : run_duration < s.elapsedMs
      · cases hb : c <;> simp [hf, hc, ht, hb] at h <;>
          repeat'
            first
            | (subst h; rfl)
            | (rcases h with h | h)
      · cases hh : (handlePeek s.peekRes s.discardOk).2 with
        | some msg =>
          cases hb : c <;> simp [hf, hc, ht, hb, hh] at h <;>
            repeat'
              first
              | exact handlePeek_loopEvents s.peekRes s.discardOk e h
              | (subst h; rfl)
              | (rcases h with h | h)
        | none =>
          cases hb : c <;> simp [hf, hc, ht, hb, hh] at h <;>
            repeat'
              first
              | exact handlePeek_loopEvents s.peekRes s.discardOk e h
              | (subst h; rfl)
              | (rcases h with h | h)

theorem pollLoop_loopEvents : ∀ steps, ∀ e ∈ (pollLoop steps).1, loopEvent e = true := by
  intro steps
  induction steps with
  | nil => intro e h; simp [pollLoop] at h
  | cons s rest ih =>
    intro e h
    cases hp : (pollStep s).2 with
    | some ex =>
      simp [pollLoop, hp] at h
      exact pollStep_loopEvents s e h
    | none =>
      simp [pollLoop, hp] at h
      rcases h with h | h
      · exact pollStep_loopEvents s e h
      · exact ih e h

theorem all_zero_iff : ∀ (bytes : List Nat),
    bytes.all (fun x => x == 0) = false ↔ ∃ b ∈ bytes, b ≠ 0 := by
  intro bytes
  rw [← Bool.not_eq_true, List.all_eq_true]
  simp

theorem printData_handlePeek :
    ∀ (r : Except Nat PeekResult) (d : Bool) (n : Nat) (bytes : List Nat),
      Event.printData n bytes ∈ (handlePeek r d).1 →
      r = Except.ok (PeekResult.Data bytes) ∧ n = bytes.length ∧
        bytes.all (fun x => x == 0) = false := by
  intro r d n bytes h
  cases r with
  | error c => simp [handlePeek] at h
  | ok pr =>
    cases pr with
    | Empty => simp [handlePeek] at h
    | Hole k => by_cases hd : d = true <;> simp [handlePeek, hd] at h
    | Data bs =>
      simp [handlePeek] at h
      unfold handleData at h
      split at h
      · simp at h
      · next hz =>
        simp at h
        obtain ⟨h1, h2⟩ := h
        subst h2
        subst h1
        exact ⟨rfl, rfl, Bool.eq_false_iff.mpr hz⟩

theorem printData_pollStep :
    ∀ (s : PollStep) (n : Nat) (bytes : List Nat),
      Event.printData n bytes ∈ (pollStep s).1 →
      s.peekRes = Except.ok (PeekResult.Data bytes) ∧ n = bytes.length ∧
        bytes.all (fun x => x == 0) = false := by
  intro s n bytes h
  unfold pollStep at h
  by_cases hf : s.iter.failed = true
  · simp [hf] at h
  · cases hc : s.corked with
    | error c => simp [hf, hc] at h
    | ok c =>
      by_cases ht : run_duration < s.elapsedMs
      · cases hb : c <;> simp [hf, hc, ht, hb] at h
      · cases hh : (handlePeek s.peekRes s.discardOk).2 with
        | some msg =>
          cases hb : c <;> simp [hf, hc, ht, hb, hh] at h <;>
            exact printData_handlePeek s.peekRes s.discardOk n bytes h
        | none =>
          cases hb : c <;> simp [hf, hc, ht, hb, hh] at h <;>
            exact printData_handlePeek s.peekRes s.discardOk n bytes h

theorem printData_pollLoop :
    ∀ (steps : List PollStep) (n : Nat) (bytes : List Nat),
      Event.printData n bytes ∈ (pollLoop steps).1 →
      (∃ s ∈ steps, s.peekRes = Except.ok (PeekResult.Data bytes)) ∧
        n = bytes.length ∧ bytes.all (fun x => x == 0) = false := by
  intro steps
  induction steps with
  | nil => intro n bytes h; simp [pollLoop] at h
  | cons s rest ih =>
    intro n bytes h
    cases hp : (pollStep s).2 with
    | some ex =>
      simp [pollLoop, hp] at h
      obtain ⟨h1, h2, h3⟩ := printData_pollStep s n bytes h
      exact ⟨⟨s, List.mem_cons_self s rest, h1⟩, h2, h3⟩
    | none =>
      simp [pollLoop, hp] at h
      rcases h with h | h
      · obtain ⟨h1, h2, h3⟩ := printData_pollStep s n bytes h
        exact ⟨⟨s, List.mem_cons_self s rest, h1⟩, h2, h3⟩
      · obtain ⟨⟨t, ht1, ht2⟩, h2, h3⟩ := ih n bytes h
        exact ⟨⟨t, List.mem_cons_of_mem s ht1, ht2⟩, h2, h3⟩

theorem take_head {α : Type} : ∀ (k : Nat) (l : List α) (v : α) (t : List α),
    l.take k = v :: t → l.head? = some v := by
  intro k l v t h
  cases k with
  | zero => simp at h
  | succ k =>
    cases l with
    | nil => simp at h
    | cons a as =>
      simp [List.take] at h
      simp [h.1]

theorem getSinkLoop_got : ∀ (steps : List RecvStep) (pending : List Nat) (v : Nat),
    (getSinkLoop steps [] pending).2 = GetSinkExit.got v → pending.head? = some v := by
  intro steps
  induction steps with
  | nil => intro pending v h; simp [getSinkLoop] at h
  | cons s rest ih =>
    intro pending v h
    by_cases hf : s.iter.failed = true
    · simp [getSinkLoop, hf] at h
    · by_cases hft : s.ctx.failedOrTerminated = true
      · simp [getSinkLoop, hf, hft] at h
      · cases hm : pending.take s.arrive with
        | cons w t =>
          simp [getSinkLoop, hf, hft, hm] at h
          rw [← h]
          exact take_head s.arrive pending w t hm
        | nil =>
          by_cases hd : s.dropped = true
          · simp [getSinkLoop, hf, hft, hm, hd] at h
          · simp [getSinkLoop, hf, hft, hm, hd] at h
            have h2 := ih (pending.drop s.arrive) v h
            rcases (List.take_eq_nil_iff).mp hm with h3 | h3
            · rw [h3] at h2
              simpa using h2
            · rw [h3] at h2
              simp at h2

theorem sinkEnum_sends :
    ∀ (sinks : List SinkInfo) (errored : Bool) (evs : List Event) (q : List Nat),
      sinkEnum sinks errored = Except.ok (evs, q) → q = matchingIndices sinks := by
  intro sinks
  induction sinks with
  | nil =>
    intro errored evs q h
    by_cases hb : errored = true <;> simp [sinkEnum, hb] at h <;>
      simp [h.2, matchingIndices]
  | cons item rest ih =>
    intro errored evs q h
    cases hn : item.name with
    | none => simp [sinkEnum, sinkItemStep, hn] at h
    | some n =>
      cases h2 : sinkEnum rest errored with
      | error msg =>
        by_cases hc : strContains n fiio = true <;>
          simp [sinkEnum, sinkItemStep, hn, hc, h2] at h
      | ok p =>
        obtain ⟨e2, q2⟩ := p
        by_cases hc : strContains n fiio = true <;>
          simp [sinkEnum, sinkItemStep, hn, hc, h2] at h
        · obtain ⟨hev, hq⟩ := h
          subst hq
          have h3 := ih errored e2 q2 h2
          subst h3
          simp [matchingIndices, List.filter_cons, sinkMatches, hn, hc]
        · obtain ⟨hev, hq⟩ := h
          subst hq
          have h3 := ih errored e2 q2 h2
          subst h3
          simp [matchingIndices, List.filter_cons, sinkMatches, hn, hc]

theorem sinkEnum_error_iff :
    ∀ (sinks : List SinkInfo) (errored : Bool),
      (∃ msg, sinkEnum sinks errored = Except.error msg) ↔
        ∃ item ∈ sinks, item.name = none := by
  intro sinks
  induction sinks with
  | nil =>
    intro errored
    constructor
    · intro ⟨msg, h⟩
      by_cases hb : errored = true <;> simp [sinkEnum, hb] at h
    · intro ⟨item, hm, _⟩
      simp at hm
  | cons item rest ih =>
    intro errored
    constructor
    · intro ⟨msg, h⟩
      cases hn : item.name with
      | none => exact ⟨item, List.mem_cons_self item rest, hn⟩
      | some n =>
        cases h2 : sinkEnum rest errored with
        | error msg2 =>
          obtain ⟨t, ht1, ht2⟩ := (ih errored).mp ⟨msg2, h2⟩
          exact ⟨t, List.mem_cons_of_mem item ht1, ht2⟩
        | ok p =>
          obtain ⟨e2, q2⟩ := p
          by_cases hc : strContains n fiio = true <;>
            simp [sinkEnum, sinkItemStep, hn, hc, h2] at h
    · intro ⟨t, ht1, ht2⟩
      rcases List.mem_cons.mp ht1 with h3 | h3
      · subst h3
        exact ⟨"called Option::unwrap on a None value", by simp [sinkEnum, sinkItemStep, ht2]⟩
      · obtain ⟨msg, hmsg⟩ := (ih errored).mpr ⟨t, h3, ht2⟩
        cases hn : item.name with
        | none => exact ⟨"called Option::unwrap on a None value", by
            simp [sinkEnum, sinkItemStep, hn]⟩
        | some n =>
          refine ⟨msg, ?_⟩
          by_cases hc : strContains n fiio = true <;>
            simp [sinkEnum, sinkItemStep, hn, hc, hmsg]

theorem find_eq_filter_head {α : Type} (p : α → Bool) :
    ∀ (l : List α), l.find? p = (l.filter p).head? := by
  intro l
  induction l with
  | nil => rfl
  | cons a as ih =>
    by_cases hp : p a = true
    · rw [List.find?_cons_of_pos as hp, List.filter_cons_of_pos hp]
      rfl
    · rw [List.find?_cons_of_neg as hp, List.filter_cons_of_neg hp, ih]

theorem spec_valid : spec.is_valid = true := rfl

theorem get_sink_first :
    ∀ (sinks : List SinkInfo) (errored : Bool) (steps : List RecvStep) (v : Nat),
      (get_sink sinks errored steps).2 = GetSinkExit.got v →
      ∃ s, sinks.find? sinkMatches = some s ∧ v = s.index := by
  intro sinks errored steps v h
  unfold get_sink at h
  cases h2 : sinkEnum sinks errored with
  | error msg => simp [h2] at h
  | ok p =>
    obtain ⟨cbEvents, sends⟩ := p
    simp [h2] at h
    have h3 := getSinkLoop_got steps sends v h
    have h4 := sinkEnum_sends sinks errored cbEvents sends h2
    subst h4
    unfold matchingIndices at h3
    rw [find_eq_filter_head]
    cases hl : sinks.filter sinkMatches with
    | nil => rw [hl] at h3; simp at h3
    | cons a t =>
      rw [hl] at h3
      simp at h3
      exact ⟨a, rfl, h3.symm⟩

theorem mem_trace2 :
    ∀ (env : Env) (e : Event),
      e ∈ trace2 env →
      e = Event.ctxConnect ∨ e = Event.createStream ∨ (∃ m, e = Event.out m) ∨
        e = Event.introspectCall ∨ waitEvent e = true := by
  intro env e h
  unfold trace2 at h
  rcases List.mem_cons.mp h with h | h
  · exact Or.inl h
  · rcases List.mem_append.mp h with h | h
    · rcases List.mem_append.mp h with h | h
      · exact Or.inr (Or.inr (Or.inr (Or.inr (ctxWait_waitEvents env.ctxSteps e h))))
      · simp at h
        rcases h with h | h | h
        · exact Or.inr (Or.inr (Or.inl ⟨"Creating stream.", h⟩))
        · exact Or.inr (Or.inl h)
        · exact Or.inr (Or.inr (Or.inl ⟨"Getting sink.", h⟩))
    · rcases get_sink_events env.sinks env.sinkEnumErrored env.recvSteps e h with h | h
      · exact Or.inr (Or.inr (Or.inr (Or.inl h)))
      · exact Or.inr (Or.inr (Or.inr (Or.inr h)))

theorem mem_trace3 :
    ∀ (env : Env) (v : Nat) (e : Event),
      e ∈ trace3 env v →
      e ∈ trace2 env ∨ e = Event.out ("Using sink " ++ toString v ++ ".") ∨
        e = Event.setMonitorStream v ∨ e = Event.connectRecord ∨ waitEvent e = true := by
  intro env v e h
  unfold trace3 at h
  rcases List.mem_append.mp h with h | h
  · rcases List.mem_append.mp h with h | h
    · exact Or.inl h
    · simp at h
      rcases h with h | h | h
      · exact Or.inr (Or.inl h)
      · exact Or.inr (Or.inr (Or.inl h))
      · exact Or.inr (Or.inr (Or.inr (Or.inl h)))
  · exact Or.inr (Or.inr (Or.inr (Or.inr (streamWait_waitEvents env.streamSteps e h))))

theorem mem_trace4 :
    ∀ (env : Env) (v : Nat) (e : Event),
      e ∈ trace4 env v →
      e ∈ trace3 env v ∨ e = Event.out "Running for 10s." ∨ loopEvent e = true := by
  intro env v e h
  unfold trace4 at h
  rcases List.mem_append.mp h with h | h
  · rcases List.mem_append.mp h with h | h
    · exact Or.inl h
    · simp at h
      exact Or.inr (Or.inl h)
  · exact Or.inr (Or.inr (pollLoop_loopEvents env.pollSteps e h))

theorem setMonitor_main :
    ∀ (env : Env) (v : Nat),
      Event.setMonitorStream v ∈ (main env).1 →
      (get_sink env.sinks env.sinkEnumErrored env.recvSteps).2 = GetSinkExit.got v := by
  intro env v h
  unfold main at h
  rw [if_pos spec_valid] at h
  cases h1 : (ctxWait env.ctxSteps).2 with
  | iterFail =>
    simp [h1] at h
    have hw := ctxWait_waitEvents env.ctxSteps _ h
    simp [waitEvent] at hw
  | ctxFail =>
    simp [h1] at h
    have hw := ctxWait_waitEvents env.ctxSteps _ h
    simp [waitEvent] at hw
  | outOfInput =>
    simp [h1] at h
    have hw := ctxWait_waitEvents env.ctxSteps _ h
    simp [waitEvent] at hw
  | ready =>
    cases h2 : (get_sink env.sinks env.sinkEnumErrored env.recvSteps).2 with
    | panicked msg =>
      simp [h1, h2] at h
      rcases mem_trace2 env _ h with h3 | h3 | ⟨m, h3⟩ | h3 | h3 <;>
        simp [waitEvent] at h3
    | outOfInput =>
      simp [h1, h2] at h
      rcases mem_trace2 env _ h with h3 | h3 | ⟨m, h3⟩ | h3 | h3 <;>
        simp [waitEvent] at h3
    | got w =>
      cases h3 : (streamWait env.streamSteps).2 with
      | iterFail =>
        simp [h1, h2, h3] at h
        rcases mem_trace3 env w _ h with h4 | h4 | h4 | h4 | h4
        · rcases mem_trace2 env _ h4 with h5 | h5 | ⟨m, h5⟩ | h5 | h5 <;>
            simp [waitEvent] at h5
        · simp at h4
        · simp at h4
          subst h4
          rfl
        · simp at h4
        · simp [waitEvent] at h4
      | streamFail =>
        simp [h1, h2, h3] at h
        rcases mem_trace3 env w _ h with h4 | h4 | h4 | h4 | h4
        · rcases mem_trace2 env _ h4 with h5 | h5 | ⟨m, h5⟩ | h5 | h5 <;>
            simp [waitEvent] at h5
        · simp at h4
        · simp at h4
          subst h4
          rfl
        · simp at h4
        · simp [waitEvent] at h4
      | outOfInput =>
        simp [h1, h2, h3] at h
        rcases mem_trace3 env w _ h with h4 | h4 | h4 | h4 | h4
        · rcases mem_trace2 env _ h4 with h5 | h5 | ⟨m, h5⟩ | h5 | h5 <;>
            simp [waitEvent] at h5
        · simp at h4
        · simp at h4
          subst h4
          rfl
        · simp at h4
        · simp [waitEvent] at h4
      | ready =>
        cases h4 : (pollLoop env.pollSteps).2 with
        | timeUp =>
          simp [h1, h2, h3, h4] at h
          rcases mem_trace4 env w _ h with h5 | h5 | h5
          · rcases mem_trace3 env w _ h5 with h6 | h6 | h6 | h6 | h6
            · rcases mem_trace2 env _ h6 with h7 | h7 | ⟨m, h7⟩ | h7 | h7 <;>
                simp [waitEvent] at h7
            · simp at h6
            · simp at h6
              subst h6
              rfl
            · simp at h6
            · simp [waitEvent] at h6
          · simp at h5
          · simp [loopEvent] at h5
        | iterFail =>
          simp [h1, h2, h3, h4] at h
          rcases mem_trace4 env w _ h with h5 | h5 | h5
          · rcases mem_trace3 env w _ h5 with h6 | h6 | h6 | h6 | h6
            · rcases mem_trace2 env _ h6 with h7 | h7 | ⟨m, h7⟩ | h7 | h7 <;>
                simp [waitEvent] at h7
            · simp at h6
            · simp at h6
              subst h6
              rfl
            · simp at h6
            · simp [waitEvent] at h6
          · simp at h5
          · simp [loopEvent] at h5
        | panicked msg =>
          simp [h1, h2, h3, h4] at h
          rcases mem_trace4 env w _ h with h5 | h5 | h5
          · rcases mem_trace3 env w _ h5 with h6 | h6 | h6 | h6 | h6
            · rcases mem_trace2 env _ h6 with h7 | h7 | ⟨m, h7⟩ | h7 | h7 <;>
                simp [waitEvent] at h7
            · simp at h6
            · simp at h6
              subst h6
              rfl
            · simp at h6
            · simp [waitEvent] at h6
          · simp at h5
          · simp [loopEvent] at h5
        | outOfInput =>
          simp [h1, h2, h3, h4] at h
          rcases mem_trace4 env w _ h with h5 | h5 | h5
          · rcases mem_trace3 env w _ h5 with h6 | h6 | h6 | h6 | h6
            · rcases mem_trace2 env _ h6 with h7 | h7 | ⟨m, h7⟩ | h7 | h7 <;>
                simp [waitEvent] at h7
            · simp at h6
            · simp at h6
              subst h6
              rfl
            · simp at h6
            · simp [waitEvent] at h6
          · simp at h5
          · simp [loopEvent] at h5

theorem discard_handlePeek :
    ∀ (r : Except Nat PeekResult) (d : Bool),
      Event.discard ∈ (handlePeek r d).1 → ∃ k, r = Except.ok (PeekResult.Hole k) := by
  intro r d h
  cases r with
  | error c => simp [handlePeek] at h
  | ok pr =>
    cases pr with
    | Empty => simp [handlePeek] at h
    | Hole k => exact ⟨k, rfl⟩
    | Data bytes =>
      simp [handlePeek] at h
      unfold handleData at h
      split at h <;> simp at h

theorem discard_pollStep :
    ∀ (s : PollStep), Event.discard ∈ (pollStep s).1 →
      ∃ k, s.peekRes = Except.ok (PeekResult.Hole k) := by
  intro s h
  unfold pollStep at h
  by_cases hf : s.iter.failed = true
  · simp [hf] at h
  · cases hc : s.corked with
    | error c => simp [hf, hc] at h
    | ok c =>
      by_cases ht : run_duration < s.elapsedMs
      · cases hb : c <;> simp [hf, hc, ht, hb] at h
      · cases hh : (handlePeek s.peekRes s.discardOk).2 with
        | some msg =>
          cases hb : c <;> simp [hf, hc, ht, hb, hh] at h <;>
            exact discard_handlePeek s.peekRes s.discardOk h
        | none =>
          cases hb : c <;> simp [hf, hc, ht, hb, hh] at h <;>
            exact discard_handlePeek s.peekRes s.discardOk h

theorem discard_pollLoop :
    ∀ (steps : List PollStep), Event.discard ∈ (pollLoop steps).1 →
      ∃ s ∈ steps, ∃ k, s.peekRes = Except.ok (PeekResult.Hole k) := by
  intro steps
  induction steps with
  | nil => intro h; simp [pollLoop] at h
  | cons s rest ih =>
    intro h
    cases hp : (pollStep s).2 with
    | some ex =>
      simp [pollLoop, hp] at h
      obtain ⟨k, hk⟩ := discard_pollStep s h
      exact ⟨s, List.mem_cons_self s rest, k, hk⟩
    | none =>
      simp [pollLoop, hp] at h
      rcases h with h | h
      · obtain ⟨k, hk⟩ := discard_pollStep s h
        exact ⟨s, List.mem_cons_self s rest, k, hk⟩
      · obtain ⟨t, ht1, k, hk⟩ := ih h
        exact ⟨t, List.mem_cons_of_mem s ht1, k, hk⟩

theorem peek_not_in_trace3 : ∀ (env : Env) (v : Nat), Event.peek ∉ trace3 env v := by
  intro env v hpk
  rcases mem_trace3 env v _ hpk with h | h | h | h | h
  · rcases mem_trace2 env _ h with h2 | h2 | ⟨m, h2⟩ | h2 | h2 <;> simp [waitEvent] at h2
  · simp at h
  · simp at h
  · simp at h
  · simp [waitEvent] at h

theorem createStream_in_trace2 : ∀ env : Env, Event.createStream ∈ trace2 env := by
  intro env
  unfold trace2
  simp

theorem createStream_in_trace3 : ∀ (env : Env) (v : Nat),
    Event.createStream ∈ trace3 env v := by
  intro env v
  unfold trace3
  simp [createStream_in_trace2 env]

theorem connectRecord_in_trace3 : ∀ (env : Env) (v : Nat),
    Event.connectRecord ∈ trace3 env v := by
  intro env v
  unfold trace3
  simp

/-- Claim C7: the audio format descriptor the stream is created with is
fixed to 16-bit little-endian samples, 2 channels, 44100 Hz, and the
validity assertion on it succeeds. -/
theorem C7_sample_spec :
    spec = ⟨Format.S16le, 2, 44100⟩ ∧ spec.is_valid = true := ⟨rfl, rfl⟩

/-- Claim C8: the program never discards after a peek that returned Data:
the Data branch emits no discard call, and every discard in a polling-loop
trace comes from a step whose peek returned a Hole. -/
theorem C8_discard_only_hole :
    (∀ (bytes : List Nat) (d : Bool),
      Event.discard ∉ (handlePeek (Except.ok (PeekResult.Data bytes)) d).1)
    ∧ (∀ steps : List PollStep, Event.discard ∈ (pollLoop steps).1 →
        ∃ s ∈ steps, ∃ k, s.peekRes = Except.ok (PeekResult.Hole k)) := by
  constructor
  · intro bytes d h
    obtain ⟨k, hk⟩ := discard_handlePeek (Except.ok (PeekResult.Data bytes)) d h
    simp at hk
  · exact discard_pollLoop

/-- Witness for C8: a concrete polling trace containing a discard, coming
from a Hole peek. -/
theorem C8_witness :
    ∃ s ∈ [PollStep.mk (IterateResult.Success 0) (Except.ok false) 0
      (Except.ok (PeekResult.Hole 4)) true],
      ∃ k, s.peekRes = Except.ok (PeekResult.Hole k) :=
  C8_discard_only_hole.2
    [⟨IterateResult.Success 0, Except.ok false, 0, Except.ok (PeekResult.Hole 4), true⟩]
    (by decide)

/-- Claim C9: in the sink-enumeration callback, an item with an absent name
makes the program panic through the unwrap, and the callback run panics
exactly when some enumerated item has no name. -/
theorem C9_name_unwrap_panic :
    (∀ item : SinkInfo, (∃ msg, sinkItemStep item = Except.error msg) ↔ item.name = none)
    ∧ (∀ (sinks : List SinkInfo) (errored : Bool),
        (∃ msg, sinkEnum sinks errored = Except.error msg) ↔
          ∃ item ∈ sinks, item.name = none) := by
  constructor
  · intro item
    cases hn : item.name with
    | none =>
      constructor
      · intro _
        rfl
      · intro _
        exact ⟨"called Option::unwrap on a None value", by simp [sinkItemStep, hn]⟩
    | some n =>
      constructor
      · intro ⟨msg, h⟩
        by_cases hc : strContains n fiio = true <;> simp [sinkItemStep, hn, hc] at h
      · intro h
        simp [hn] at h
  · exact sinkEnum_error_iff

/-- Witness for C9: a single nameless sink item makes the callback panic. -/
theorem C9_witness :
    ∃ msg, sinkEnum [⟨none, 0⟩] false = Except.error msg :=
  (C9_name_unwrap_panic.2 [⟨none, 0⟩] false).mpr ⟨⟨none, 0⟩, by decide, rfl⟩

/-- Claim C6: the polling loop runs for a fixed duration of ten seconds
(run_duration, in milliseconds): in an iteration whose elapsed time exceeds
it, after a successful iterate and cork check the loop breaks at the
duration check, the remaining trace holds no peek, and the later steps are
never executed. -/
theorem C6_ten_seconds :
    run_duration = 10 * 1000
    ∧ (∀ (s : PollStep) (rest : List PollStep) (n : Int) (c : Bool),
        s.iter = IterateResult.Success n → s.corked = Except.ok c →
        run_duration < s.elapsedMs →
        pollLoop (s :: rest) =
          (Event.iterate :: Event.corkCheck ::
            (if c then [Event.out "Uncorking stream.", Event.uncork] else []),
           PollExit.timeUp)
        ∧ Event.peek ∉ (pollLoop (s :: rest)).1) := by
  constructor
  · rfl
  · intro s rest n c h1 h2 h3
    obtain ⟨it, ck, el, pr, d⟩ := s
    simp at h1 h2 h3
    subst h1
    subst h2
    have heq : pollLoop (⟨IterateResult.Success n, Except.ok c, el, pr, d⟩ :: rest) =
        (Event.iterate :: Event.corkCheck ::
          (if c then [Event.out "Uncorking stream.", Event.uncork] else []),
         PollExit.timeUp) := by
      simp [pollLoop, pollStep, IterateResult.failed, h3]
    refine ⟨heq, ?_⟩
    rw [heq]
    cases c <;> simp

/-- Witness for C6 at a concrete over-time step. -/
theorem C6_witness :
    pollLoop [⟨IterateResult.Success 0, Except.ok false, 10001,
        Except.ok PeekResult.Empty, true⟩] =
      (Event.iterate :: Event.corkCheck ::
        (if false then [Event.out "Uncorking stream.", Event.uncork] else []),
       PollExit.timeUp)
    ∧ Event.peek ∉ (pollLoop [⟨IterateResult.Success 0, Except.ok false, 10001,
        Except.ok PeekResult.Empty, true⟩]).1 :=
  C6_ten_seconds.2 ⟨IterateResult.Success 0, Except.ok false, 10001,
    Except.ok PeekResult.Empty, true⟩ [] 0 false rfl rfl (by decide)

/-- Claim C4: an observed Failed or Terminated state stops the run: the
context wait returns with a diagnostic, the stream wait returns with a
diagnostic, the sink lookup panics, in each case performing no further
operation (the trace does not depend on the remaining input), and main ends
right there with an early return. -/
theorem C4_failed_terminated_stops :
    (∀ (n : Int) (cs : ContextState) (rest : List (IterateResult × ContextState)),
      cs = ContextState.Failed ∨ cs = ContextState.Terminated →
      ctxWait ((IterateResult.Success n, cs) :: rest) =
        ([Event.iterate, Event.ctxGetState,
          Event.errOut "Context state failed/terminated, quitting..."], CtxWaitExit.ctxFail))
    ∧ (∀ (n : Int) (ss : StreamState) (rest : List (IterateResult × StreamState)),
      ss = StreamState.Failed ∨ ss = StreamState.Terminated →
      streamWait ((IterateResult.Success n, ss) :: rest) =
        ([Event.iterate, Event.streamGetState,
          Event.errOut "Stream state failed/terminated, quitting..."],
         StreamWaitExit.streamFail))
    ∧ (∀ (s : RecvStep) (rest : List RecvStep) (mailbox pending : List Nat) (n : Int),
      s.iter = IterateResult.Success n →
      s.ctx = ContextState.Failed ∨ s.ctx = ContextState.Terminated →
      getSinkLoop (s :: rest) mailbox pending =
        ([Event.iterate, Event.ctxGetState],
         GetSinkExit.panicked "Context state failed/terminated, quitting..."))
    ∧ (∀ env : Env, (ctxWait env.ctxSteps).2 = CtxWaitExit.ctxFail →
      main env = (Event.ctxConnect :: (ctxWait env.ctxSteps).1, Outcome.earlyReturn))
    ∧ (∀ (env : Env) (v : Nat), (ctxWait env.ctxSteps).2 = CtxWaitExit.ready →
      (get_sink env.sinks env.sinkEnumErrored env.recvSteps).2 = GetSinkExit.got v →
      (streamWait env.streamSteps).2 = StreamWaitExit.streamFail →
      main env = (trace3 env v, Outcome.earlyReturn)) := by
  refine ⟨?_, ?_, ?_, ?_, ?_⟩
  · intro n cs rest h
    rcases h with h | h <;> subst h <;> rfl
  · intro n ss rest h
    rcases h with h | h <;> subst h <;> rfl
  · intro s rest mailbox pending n h1 h2
    obtain ⟨it, cx, ar, dr⟩ := s
    simp at h1
    subst h1
    rcases h2 with h | h <;> simp at h <;> subst h <;> rfl
  · intro env h1
    unfold main
    rw [if_pos spec_valid, h1]
  · intro env v h1 h2 h3
    unfold main
    rw [if_pos spec_valid, h1, h2, h3]

/-- Witness for C4 at concrete inputs. -/
theorem C4_witness :
    ctxWait [(IterateResult.Success 0, ContextState.Failed)] =
      ([Event.iterate, Event.ctxGetState,
        Event.errOut "Context state failed/terminated, quitting..."], CtxWaitExit.ctxFail) :=
  C4_failed_terminated_stops.1 0 ContextState.Failed [] (Or.inl rfl)

/-- Claim C2 counterexample: a failed stream read (peek returning an error)
only prints a diagnostic to standard error; the polling loop then runs a
further iteration with a further peek and ends through the duration check,
so the process does not terminate at the failed read. -/
theorem C2_counterexample :
    pollLoop
      [⟨IterateResult.Success 0, Except.ok false, 0, Except.error 7, true⟩,
       ⟨IterateResult.Success 0, Except.ok false, 5, Except.ok PeekResult.Empty, true⟩,
       ⟨IterateResult.Success 0, Except.ok false, 10001, Except.ok PeekResult.Empty, true⟩] =
      ([Event.iterate, Event.corkCheck, Event.peek,
        Event.errOut "Error reading from stream 7.",
        Event.iterate, Event.corkCheck, Event.peek,
        Event.iterate, Event.corkCheck], PollExit.timeUp) := by decide

/-- Claim C2 (amended): a failed mainloop iteration prints a diagnostic to
standard error and the enclosing loop stops immediately with no retry; a
sink-enumeration error and a failed stream read print a diagnostic to
standard error but do not terminate the run: the enumeration callback
finishes normally and the polling loop continues with its next iteration. -/
theorem C2_error_policy :
    (∀ (code : Nat) (cs : ContextState) (rest : List (IterateResult × ContextState)),
      ctxWait ((IterateResult.Err code, cs) :: rest) =
        ([Event.iterate, Event.errOut "Iterate state was not success, qutting..."],
         CtxWaitExit.iterFail))
    ∧ (∀ (code : Nat) (ss : StreamState) (rest : List (IterateResult × StreamState)),
      streamWait ((IterateResult.Err code, ss) :: rest) =
        ([Event.iterate, Event.errOut "Iterate state was not success, quitting..."],
         StreamWaitExit.iterFail))
    ∧ (∀ (s : PollStep) (rest : List PollStep) (code : Nat),
      s.iter = IterateResult.Err code →
      pollLoop (s :: rest) =
        ([Event.iterate, Event.errOut "Iterate state was not success, quitting..."],
         PollExit.iterFail))
    ∧ (sinkEnum [] true =
        Except.ok ([Event.errOut "Error getting sink info list."], []))
    ∧ (∀ (s : PollStep) (rest : List PollStep) (n : Int) (code : Nat),
      s.iter = IterateResult.Success n → s.corked = Except.ok false →
      s.elapsedMs ≤ run_duration → s.peekRes = Except.error code →
      (pollLoop (s :: rest)).1 =
        Event.iterate :: Event.corkCheck :: Event.peek ::
          Event.errOut ("Error reading from stream " ++ toString code ++ ".") ::
          (pollLoop rest).1
      ∧ (pollLoop (s :: rest)).2 = (pollLoop rest).2) := by
  refine ⟨?_, ?_, ?_, ?_, ?_⟩
  · intro code cs rest
    rfl
  · intro code ss rest
    rfl
  · intro s rest code h1
    obtain ⟨it, ck, el, pr, d⟩ := s
    simp at h1
    subst h1
    rfl
  · rfl
  · intro s rest n code h1 h2 h3 h4
    obtain ⟨it, ck, el, pr, d⟩ := s
    simp at h1 h2 h3 h4
    subst h1
    subst h2
    subst h4
    constructor <;>
      simp [pollLoop, pollStep, handlePeek, IterateResult.failed, Nat.not_lt.mpr h3]

/-- Witness for C2 (amended) at a concrete failed read. -/
theorem C2_witness :
    (pollLoop [⟨IterateResult.Success 0, Except.ok false, 0, Except.error 7, true⟩]).1 =
      Event.iterate :: Event.corkCheck :: Event.peek ::
        Event.errOut ("Error reading from stream " ++ toString 7 ++ ".") ::
        (pollLoop []).1
    ∧ (pollLoop [⟨IterateResult.Success 0, Except.ok false, 0, Except.error 7, true⟩]).2 =
      (pollLoop []).2 :=
  C2_error_policy.2.2.2.2 ⟨IterateResult.Success 0, Except.ok false, 0, Except.error 7, true⟩
    [] 0 7 rfl rfl (by decide) rfl

/-- Claim C3: whenever get_sink returns an index, it is the index of the
first enumerated sink whose name contains the fixed substring, and any
monitor-stream target set during a run of main equals the index get_sink
returned. -/
theorem C3_first_matching_sink :
    (∀ (sinks : List SinkInfo) (errored : Bool) (steps : List RecvStep) (v : Nat),
      (get_sink sinks errored steps).2 = GetSinkExit.got v →
      ∃ s, sinks.find? sinkMatches = some s ∧ v = s.index)
    ∧ (∀ (env : Env) (v : Nat),
      Event.setMonitorStream v ∈ (main env).1 →
      (get_sink env.sinks env.sinkEnumErrored env.recvSteps).2 = GetSinkExit.got v) :=
  ⟨get_sink_first, setMonitor_main⟩

/-- Witness for C3: two sinks, the second matching; get_sink yields 7 and
that is the first (and only) matching sink. -/
theorem C3_witness :
    ∃ s, List.find? sinkMatches [⟨some "Built-in", 0⟩, ⟨some "FiiO K5 Pro", 7⟩] = some s ∧
      7 = s.index :=
  C3_first_matching_sink.1 [⟨some "Built-in", 0⟩, ⟨some "FiiO K5 Pro", 7⟩] false
    [⟨IterateResult.Success 0, ContextState.Ready, 2, false⟩] 7 (by decide)

/-- Claim C1: the Data branch of the polling loop prints a chunk (its
length and bytes) exactly when some byte is non-zero, an all-zero chunk
produces no output, and every chunk print in a polling-loop trace comes
from a successful peek that returned that chunk with a non-zero byte. -/
theorem C1_nonsilent_print :
    (∀ bytes : List Nat,
      (Event.printData bytes.length bytes ∈ handleData bytes ↔ ∃ b ∈ bytes, b ≠ 0)
      ∧ (bytes.all (fun x => x == 0) = true → handleData bytes = []))
    ∧ (∀ (steps : List PollStep) (n : Nat) (bytes : List Nat),
        Event.printData n bytes ∈ (pollLoop steps).1 →
        (∃ s ∈ steps, s.peekRes = Except.ok (PeekResult.Data bytes)) ∧
          n = bytes.length ∧ ∃ b ∈ bytes, b ≠ 0) := by
  constructor
  · intro bytes
    constructor
    · constructor
      · intro hmem
        unfold handleData at hmem
        by_cases hz : bytes.all (fun x => x == 0) = true
        · rw [if_pos hz] at hmem
          simp at hmem
        · exact (all_zero_iff bytes).mp (Bool.eq_false_iff.mpr hz)
      · intro hex
        have hfalse := (all_zero_iff bytes).mpr hex
        unfold handleData
        rw [hfalse]
        simp
    · intro hz
      simp [handleData, hz]
  · intro steps n bytes h
    obtain ⟨he, h2, h3⟩ := printData_pollLoop steps n bytes h
    exact ⟨he, h2, (all_zero_iff bytes).mp h3⟩

/-- Witness for C1: a chunk with a non-zero byte is printed by a concrete
polling run. -/
theorem C1_witness :
    (∃ s ∈ [PollStep.mk (IterateResult.Success 0) (Except.ok false) 0
        (Except.ok (PeekResult.Data [0, 3])) true],
      s.peekRes = Except.ok (PeekResult.Data [0, 3])) ∧
      2 = List.length [0, 3] ∧ ∃ b ∈ [0, 3], b ≠ 0 :=
  C1_nonsilent_print.2
    [⟨IterateResult.Success 0, Except.ok false, 0, Except.ok (PeekResult.Data [0, 3]), true⟩]
    2 [0, 3] (by decide)

/-- Claim C5: the phases happen in order: the stream is created only after
the context wait ended with Ready, the record connect happens only after a
sink index was obtained, and a peek happens only after both the context
wait and the stream wait ended with Ready, strictly later in the trace than
stream creation and record connect. -/
theorem C5_phase_order :
    ∀ env : Env,
      (Event.createStream ∈ (main env).1 → (ctxWait env.ctxSteps).2 = CtxWaitExit.ready)
      ∧ (Event.connectRecord ∈ (main env).1 →
          (ctxWait env.ctxSteps).2 = CtxWaitExit.ready ∧
          ∃ v, (get_sink env.sinks env.sinkEnumErrored env.recvSteps).2 = GetSinkExit.got v)
      ∧ (Event.peek ∈ (main env).1 →
          (ctxWait env.ctxSteps).2 = CtxWaitExit.ready ∧
          (streamWait env.streamSteps).2 = StreamWaitExit.ready ∧
          ∃ t1 t2, (main env).1 = t1 ++ t2 ∧ Event.createStream ∈ t1 ∧
            Event.connectRecord ∈ t1 ∧ Event.peek ∉ t1) := by
  intro env
  refine ⟨?_, ?_, ?_⟩
  · intro h
    cases h1 : (ctxWait env.ctxSteps).2 with
    | ready => rfl
    | iterFail =>
      unfold main at h
      rw [if_pos spec_valid] at h
      simp [h1] at h
      have hw := ctxWait_waitEvents env.ctxSteps _ h
      simp [waitEvent] at hw
    | ctxFail =>
      unfold main at h
      rw [if_pos spec_valid] at h
      simp [h1] at h
      have hw := ctxWait_waitEvents env.ctxSteps _ h
      simp [waitEvent] at hw
    | outOfInput =>
      unfold main at h
      rw [if_pos spec_valid] at h
      simp [h1] at h
      have hw := ctxWait_waitEvents env.ctxSteps _ h
      simp [waitEvent] at hw
  · intro h
    cases h1 : (ctxWait env.ctxSteps).2 with
    | iterFail =>
      unfold main at h
      rw [if_pos spec_valid] at h
      simp [h1] at h
      have hw := ctxWait_waitEvents env.ctxSteps _ h
      simp [waitEvent] at hw
    | ctxFail =>
      unfold main at h
      rw [if_pos spec_valid] at h
      simp [h1] at h
      have hw := ctxWait_waitEvents env.ctxSteps _ h
      simp [waitEvent] at hw
    | outOfInput =>
      unfold main at h
      rw [if_pos spec_valid] at h
      simp [h1] at h
      have hw := ctxWait_waitEvents env.ctxSteps _ h
      simp [waitEvent] at hw
    | ready =>
      cases h2 : (get_sink env.sinks env.sinkEnumErrored env.recvSteps).2 with
      | panicked msg =>
        unfold main at h
        rw [if_pos spec_valid] at h
        simp [h1, h2] at h
        rcases mem_trace2 env _ h with h3 | h3 | ⟨m, h3⟩ | h3 | h3 <;>
          simp [waitEvent] at h3
      | outOfInput =>
        unfold main at h
        rw [if_pos spec_valid] at h
        simp [h1, h2] at h
        rcases mem_trace2 env _ h with h3 | h3 | ⟨m, h3⟩ | h3 | h3 <;>
          simp [waitEvent] at h3
      | got w => exact ⟨rfl, w, rfl⟩
  · intro h
    cases h1 : (ctxWait env.ctxSteps).2 with
    | iterFail =>
      unfold main at h
      rw [if_pos spec_valid] at h
      simp [h1] at h
      have hw := ctxWait_waitEvents env.ctxSteps _ h
      simp [waitEvent] at hw
    | ctxFail =>
      unfold main at h
      rw [if_pos spec_valid] at h
      simp [h1] at h
      have hw := ctxWait_waitEvents env.ctxSteps _ h
      simp [waitEvent] at hw
    | outOfInput =>
      unfold main at h
      rw [if_pos spec_valid] at h
      simp [h1] at h
      have hw := ctxWait_waitEvents env.ctxSteps _ h
      simp [waitEvent] at hw
    | ready =>
      cases h2 : (get_sink env.sinks env.sinkEnumErrored env.recvSteps).2 with
      | panicked msg =>
        unfold main at h
        rw [if_pos spec_valid] at h
        simp [h1, h2] at h
        rcases mem_trace2 env _ h with h3 | h3 | ⟨m, h3⟩ | h3 | h3 <;>
          simp [waitEvent] at h3
      | outOfInput =>
        unfold main at h
        rw [if_pos spec_valid] at h
        simp [h1, h2] at h
        rcases mem_trace2 env _ h with h3 | h3 | ⟨m, h3⟩ | h3 | h3 <;>
          simp [waitEvent] at h3
      | got w =>
        cases h3 : (streamWait env.streamSteps).2 with
        | iterFail =>
          unfold main at h
          rw [if_pos spec_valid] at h
          simp [h1, h2, h3] at h
          exact absurd h (peek_not_in_trace3 env w)
        | streamFail =>
          unfold main at h
          rw [if_pos spec_valid] at h
          simp [h1, h2, h3] at h
          exact absurd h (peek_not_in_trace3 env w)
        | outOfInput =>
          unfold main at h
          rw [if_pos spec_valid] at h
          simp [h1, h2, h3] at h
          exact absurd h (peek_not_in_trace3 env w)
        | ready =>
          cases h4 : (pollLoop env.pollSteps).2 with
          | timeUp =>
            refine ⟨rfl, rfl, trace3 env w ++ [Event.out "Running for 10s."],
              (pollLoop env.pollSteps).1 ++
                [Event.out "Shutdown.", Event.quitMainloop, Event.disconnectStream],
              ?_, ?_, ?_, ?_⟩
            · unfold main
              rw [if_pos spec_valid, h1, h2, h3, h4]
              unfold trace4
              simp [List.append_assoc]
            · exact List.mem_append.mpr (Or.inl (createStream_in_trace3 env w))
            · exact List.mem_append.mpr (Or.inl (connectRecord_in_trace3 env w))
            · intro hpk
              rcases List.mem_append.mp hpk with hpk | hpk
              · exact peek_not_in_trace3 env w hpk
              · simp at hpk
          | iterFail =>
            refine ⟨rfl, rfl, trace3 env w ++ [Event.out "Running for 10s."],
              (pollLoop env.pollSteps).1, ?_, ?_, ?_, ?_⟩
            · unfold main
              rw [if_pos spec_valid, h1, h2, h3, h4]
              unfold trace4
              simp [List.append_assoc]
            · exact List.mem_append.mpr (Or.inl (createStream_in_trace3 env w))
            · exact List.mem_append.mpr (Or.inl (connectRecord_in_trace3 env w))
            · intro hpk
              rcases List.mem_append.mp hpk with hpk | hpk
              · exact peek_not_in_trace3 env w hpk
              · simp at hpk
          | panicked msg =>
            refine ⟨rfl, rfl, trace3 env w ++ [Event.out "Running for 10s."],
              (pollLoop env.pollSteps).1, ?_, ?_, ?_, ?_⟩
            · unfold main
              rw [if_pos spec_valid, h1, h2, h3, h4]
              unfold trace4
              simp [List.append_assoc]
            · exact List.mem_append.mpr (Or.inl (createStream_in_trace3 env w))
            · exact List.mem_append.mpr (Or.inl (connectRecord_in_trace3 env w))
            · intro hpk
              rcases List.mem_append.mp hpk with hpk | hpk
              · exact peek_not_in_trace3 env w hpk
              · simp at hpk
          | outOfInput =>
            refine ⟨rfl, rfl, trace3 env w ++ [Event.out "Running for 10s."],
              (pollLoop env.pollSteps).1, ?_, ?_, ?_, ?_⟩
            · unfold main
              rw [if_pos spec_valid, h1, h2, h3, h4]
              unfold trace4
              simp [List.append_assoc]
            · exact List.mem_append.mpr (Or.inl (createStream_in_trace3 env w))
            · exact List.mem_append.mpr (Or.inl (connectRecord_in_trace3 env w))
            · intro hpk
              rcases List.mem_append.mp hpk with hpk | hpk
              · exact peek_not_in_trace3 env w hpk
              · simp at hpk

/-- Witness for C5 at the concrete environment envA. -/
theorem C5_witness :
    (ctxWait envA.ctxSteps).2 = CtxWaitExit.ready ∧
    (streamWait envA.streamSteps).2 = StreamWaitExit.ready ∧
    ∃ t1 t2, (main envA).1 = t1 ++ t2 ∧ Event.createStream ∈ t1 ∧
      Event.connectRecord ∈ t1 ∧ Event.peek ∉ t1 :=
  (C5_phase_order envA).2.2 (by decide)

end PulseVisualizer
